import Mathlib

/-
Verification of the observable key-value store in `src/data_store.js` of
hufyhang/hoox.  The JavaScript class `DataStore` is shallowly embedded below:
JS values become the inductive `JSValue`, the store state becomes the record
`DataStore`, and every method of the class becomes a Lean function over that
record.  Listener callbacks are modelled as lists of removal actions (the only
state-changing behaviour the claims exercise) together with an identifier, and
each method additionally returns the trace of listener invocations it performs,
so that notification order and multiplicity can be stated as list equations.
-/

set_option maxHeartbeats 1000000

namespace Hoox

/-- The reserved selector-name marker, `SELECTOR_PREFIX = 'selector::'` in
`src/data_store.js`. -/
def selectorMarker : String := "selector::"

/-- Models the JS check `name.indexOf(SELECTOR_PREFIX) === 0`: `indexOf`
returns 0 exactly when the string starts with the sought substring. -/
def jsStartsWith (s pfx : String) : Bool := pfx.data.isPrefixOf s.data

/-- Deep embedding of the JavaScript values the store manipulates.  Numbers
are modelled as integers; a function is represented by an identifier only,
since the comparator never looks inside a function (any two functions are
declared different). -/
inductive JSValue : Type
  | vUndefined : JSValue
  | vNull : JSValue
  | vBool (b : Bool) : JSValue
  | vNum (n : Int) : JSValue
  | vStr (s : String) : JSValue
  | vArr (elems : List JSValue) : JSValue
  | vObj (fields : List (String × JSValue)) : JSValue
  | vFunc (id : Nat) : JSValue

open JSValue

/-- JSON string escaping for the characters that JSON.stringify escapes and
that matter for injectivity (quote and backslash). -/
def jsonEscapeChar (c : Char) : String :=
  if c = '"' then "\\\"" else if c = '\\' then "\\\\" else String.singleton c

/-- A JSON string literal: the escaped characters wrapped in quotes. -/
def jsonQuote (s : String) : String :=
  "\"" ++ String.join (s.data.map jsonEscapeChar) ++ "\""

mutual

/-- Serialization of a value in array position, as `JSON.stringify` renders
it: `undefined` and functions become `null` inside arrays. -/
def jsonSer : JSValue → String
  | .vUndefined => "null"
  | .vFunc _ => "null"
  | .vNull => "null"
  | .vBool true => "true"
  | .vBool false => "false"
  | .vNum n => toString n
  | .vStr s => jsonQuote s
  | .vArr es => "[" ++ String.intercalate "," (jsonSerList es) ++ "]"
  | .vObj fs => "\x7b" ++ String.intercalate "," (jsonSerFields fs) ++ "\x7d"

/-- Serialize each element of an array. -/
def jsonSerList : List JSValue → List String
  | [] => []
  | v :: vs => jsonSer v :: jsonSerList vs

/-- Serialize the fields of an object; properties whose value is `undefined`
or a function are skipped by `JSON.stringify`. -/
def jsonSerFields : List (String × JSValue) → List String
  | [] => []
  | (_, .vUndefined) :: fs => jsonSerFields fs
  | (_, .vFunc _) :: fs => jsonSerFields fs
  | (k, v) :: fs => (jsonQuote k ++ ":" ++ jsonSer v) :: jsonSerFields fs

end

/-- Top-level `JSON.stringify`: `undefined` and bare functions serialize to
the JS value `undefined` (modelled as `none`), everything else to a string. -/
def jsonStringify : JSValue → Option String
  | .vUndefined => none
  | .vFunc _ => none
  | v => some (jsonSer v)

/-- The JS `typeof` operator on embedded values. -/
def typeofJS : JSValue → String
  | .vUndefined => "undefined"
  | .vNull => "object"
  | .vBool _ => "boolean"
  | .vNum _ => "number"
  | .vStr _ => "string"
  | .vArr _ => "object"
  | .vObj _ => "object"
  | .vFunc _ => "function"

/-- The JS `Object.prototype.toString.call` tag of a value. -/
def toStringTag : JSValue → String
  | .vUndefined => "[object Undefined]"
  | .vNull => "[object Null]"
  | .vBool _ => "[object Boolean]"
  | .vNum _ => "[object Number]"
  | .vStr _ => "[object String]"
  | .vArr _ => "[object Array]"
  | .vObj _ => "[object Object]"
  | .vFunc _ => "[object Function]"

/-- The helper `isObject` of `_compareValuesDiff`:
`Object.prototype.toString.call(obj) === '[object Object]'`. -/
def isObject (v : JSValue) : Bool := toStringTag v == "[object Object]"

/-- The helper `notFunction` of `_compareValuesDiff`: `typeof o !== 'function'`. -/
def notFunction (v : JSValue) : Bool := typeofJS v != "function"

/-- The helper `bothValueNotFunction` of `_compareValuesDiff`. -/
def bothValueNotFunction (a b : JSValue) : Bool := notFunction a && notFunction b

/-- The helper `nonOnbjectValueEquals` of `_compareValuesDiff` (name kept from
the source): `JSON.stringify(a) === JSON.stringify(b)`. -/
def nonOnbjectValueEquals (a b : JSValue) : Bool := jsonStringify a == jsonStringify b

/-- `Object.keys` of an embedded value (only ever applied to plain objects in
the comparator). -/
def objKeys : JSValue → List String
  | .vObj fs => fs.map Prod.fst
  | _ => []

/-- JS property read `v[key]`, yielding `undefined` for a missing property. -/
def getProp (v : JSValue) (key : String) : JSValue :=
  match v with
  | .vObj fs =>
    match fs.find? (fun kv => kv.1 == key) with
    | some kv => kv.2
    | none => .vUndefined
  | _ => .vUndefined

/-- The helper `isShallowDiff` of `_compareValuesDiff`: different key counts
are a difference; otherwise the `for..in` loop returns on the very first own
key (value-comparing it when neither value is a function or a plain object,
otherwise declaring a difference), and an object with no keys falls through
to `false`. -/
def isShallowDiff (a b : JSValue) : Bool :=
  if (objKeys a).length != (objKeys b).length then
    true
  else
    match objKeys a with
    | [] => false
    | key :: _ =>
      let valueA := getProp a key
      let valueB := getProp b key
      if bothValueNotFunction valueA valueB && (!isObject valueA && !isObject valueB) then
        !(nonOnbjectValueEquals valueA valueB)
      else
        true

/-- `DataStore._compareValuesDiff`, the change comparator: the four-strategy
chain of `src/data_store.js` lines 193-264, first matching case winning. -/
def compareValuesDiff (a b : JSValue) : Bool :=
  if isObject a && isObject b then
    isShallowDiff a b
  else if typeofJS a != typeofJS b then
    true
  else if typeofJS a == "function" && typeofJS b == "function" then
    true
  else
    jsonStringify a != jsonStringify b

/-- Written from the claim's words: a plain object — not an array, not null. -/
def isPlainObject : JSValue → Bool
  | .vObj _ => true
  | _ => false

/-- Written from the claim's words: is the value a function. -/
def isFunctionValue : JSValue → Bool
  | .vFunc _ => true
  | _ => false

/-- Reference comparator written from the claim's words (first matching rule
winning): (1) both plain objects → different key counts differ, else only the
first key is inspected — both corresponding values non-function and neither a
plain object → inequality of JSON serializations, else different; (2)
different `typeof` → different; (3) both functions → different; (4) otherwise
different exactly when the JSON serializations differ. -/
def specCompareDiff (a b : JSValue) : Bool :=
  if isPlainObject a && isPlainObject b then
    if (objKeys a).length != (objKeys b).length then
      true
    else
      match objKeys a with
      | [] => false
      | key :: _ =>
        let valueA := getProp a key
        let valueB := getProp b key
        if (!isFunctionValue valueA && !isFunctionValue valueB)
            && (!isPlainObject valueA && !isPlainObject valueB) then
          jsonStringify valueA != jsonStringify valueB
        else
          true
  else if typeofJS a != typeofJS b then
    true
  else if isFunctionValue a && isFunctionValue b then
    true
  else
    jsonStringify a != jsonStringify b

theorem condition_eq (x y : JSValue) :
    (bothValueNotFunction x y && (!isObject x && !isObject y))
      = ((!isFunctionValue x && !isFunctionValue y)
          && (!isPlainObject x && !isPlainObject y)) := by
  cases x <;> cases y <;> rfl

/-- C3: the change comparator `_compareValuesDiff` equals the reference
definition built from the claim's four rules, first matching rule winning. -/
theorem compareValuesDiff_eq_spec (a b : JSValue) :
    compareValuesDiff a b = specCompareDiff a b := by
  cases a <;> cases b <;> (try rfl)
  case vObj.vObj fa fb =>
    show isShallowDiff (JSValue.vObj fa) (JSValue.vObj fb)
        = specCompareDiff (JSValue.vObj fa) (JSValue.vObj fb)
    unfold isShallowDiff specCompareDiff
    rw [show (isPlainObject (JSValue.vObj fa) && isPlainObject (JSValue.vObj fb)) = true from rfl]
    simp only [eq_self_iff_true, if_true]
    rcases h : ((objKeys (JSValue.vObj fa)).length != (objKeys (JSValue.vObj fb)).length) with _ | _ <;>
      simp only [h, Bool.false_eq_true, if_false, if_true, eq_self_iff_true]
    cases hk : objKeys (JSValue.vObj fa) with
    | nil => rfl
    | cons key rest =>
      dsimp only
      rw [condition_eq]
      rfl

/-! The store state.  JS objects used as dictionaries (`this.store`,
`this.listeners`, `this.selectors`) become association lists that keep the
JS property-insertion order; assigning to an existing key replaces its value
in place, assigning to a fresh key appends. -/

/-- Association-list lookup: `m[k]`, `none` when the property is absent. -/
def alookup {α : Type} (m : List (String × α)) (k : String) : Option α :=
  (m.find? (fun p => p.1 == k)).map Prod.snd

/-- Association-list assignment `m[k] = v`: replace in place when present,
append when absent (JS property-insertion order). -/
def aset {α : Type} (m : List (String × α)) (k : String) (v : α) : List (String × α) :=
  if m.any (fun p => p.1 == k) then
    m.map (fun p => if p.1 == k then (k, v) else p)
  else
    m ++ [(k, v)]

/-- An action a listener callback may perform on the store: calling the
`remove()` of some handle.  `remove` closes over the list that owns the
handle, so the action names the owning data name or selector name. -/
inductive RemoveAction : Type
  | removeData (name : String) (hid : Nat) : RemoveAction
  | removeSelector (selName : String) (hid : Nat) : RemoveAction
deriving DecidableEq

/-- A listener handle: its identity and what its `onChange` callback does to
the store when invoked (the trace of the invocation itself is recorded
separately as an `Event`). -/
structure Handle where
  id : Nat
  actions : List RemoveAction
deriving DecidableEq

/-- The transformer of a selector, applied positionally to the current values
of its dependencies. -/
def Transformer : Type := List JSValue → JSValue

/-- A `this.store[name]` entry: `{ _data, _selectors }`. -/
structure StoreItem where
  _data : JSValue
  _selectors : List String

/-- A `this.selectors[name]` entry: `{ _transformer, _deps, _listeners }`. -/
structure SelectorEntry where
  _transformer : Transformer
  _deps : List String
  _listeners : List Handle

/-- The `DataStore` instance state: `this.store`, `this.listeners`,
`this.selectors`, plus the `_removed` flags of all handles ever created
(`removedFlags` holds the ids whose flag is set) and a fresh-id counter for
handle allocation. -/
structure DataStore where
  store : List (String × StoreItem)
  listeners : List (String × List Handle)
  selectors : List (String × SelectorEntry)
  removedFlags : List Nat
  nextId : Nat

/-- Observable listener invocations: a data listener receives
`(newValue, previousValue)`, a selector listener the recomputed value. -/
inductive Event : Type
  | dataCall (hid : Nat) (newValue prevValue : JSValue) : Event
  | selectorCall (hid : Nat) (value : JSValue) : Event

/-- The id a recorded invocation went to. -/
def eventId : Event → Nat
  | .dataCall hid _ _ => hid
  | .selectorCall hid _ => hid

/-- Errors the methods can signal.  `notInitialized` and `undefinedSelector`
are the two explicit `Error` throws; `invalidArgument` is the explicit
`TypeError` thrown by `defineSelector` for a non-string name; `typeError` is
an implicit TypeError from reading a property of `undefined`. -/
inductive StoreError : Type
  | notInitialized : StoreError
  | undefinedSelector : StoreError
  | invalidArgument : StoreError
  | typeError : StoreError
deriving DecidableEq

/-- `DataStore._initDataStoreItem(name, value)`: create the entry and its
listener list when the name is unknown, otherwise do nothing. -/
def initDataStoreItem (s : DataStore) (name : String) (value : JSValue) : DataStore :=
  if (alookup s.store name).isSome then s
  else
    { s with
      store := aset s.store name ⟨value, []⟩
      listeners := aset s.listeners name [] }

/-- The placeholder selector entry `initDataStore` installs for each listed
selector name: a transformer returning `undefined` (JS `() => {}`), no deps,
no listeners. -/
def placeholderEntry : SelectorEntry := ⟨fun _ => JSValue.vUndefined, [], []⟩

/-- Qualify a selector name: prepend the marker unless already present
(`if (name.indexOf(SELECTOR_PREFIX) !== 0) name = SELECTOR_PREFIX + name`). -/
def qualifySelector (name : String) : String :=
  if jsStartsWith name selectorMarker then name else selectorMarker ++ name

/-- The body of `initDataStore`'s `selectors.forEach` loop: unconditionally
assign the placeholder entry under the qualified name. -/
def initSelectorItem (acc : DataStore) (selectorName : String) : DataStore :=
  { acc with selectors := aset acc.selectors (qualifySelector selectorName) placeholderEntry }

/-- `DataStore.initDataStore({data, selectors})`: initialize each data entry
(no-op when present), then unconditionally install a placeholder entry for
each (qualified) selector name. -/
def initDataStore (s : DataStore) (data : List (String × JSValue))
    (sels : List String) : DataStore :=
  let s1 := data.foldl (fun acc p => initDataStoreItem acc p.1 p.2) s
  sels.foldl initSelectorItem s1

/-- `DataStore.getSelector(name)`: fail when the selector is unknown (note:
no prefix normalization here), read each dependency's current value
(`this.store[dep]._data`, an implicit TypeError when a dep is missing), and
apply the transformer positionally. -/
def getSelector (s : DataStore) (name : String) : Except StoreError JSValue :=
  match alookup s.selectors name with
  | none => .error .undefinedSelector
  | some entry =>
    match entry._deps.mapM (fun dep =>
        match alookup s.store dep with
        | some item => Except.ok item._data
        | none => Except.error StoreError.typeError) with
    | .error e => .error e
    | .ok depData => .ok (entry._transformer depData)

/-- `DataStore.get(name)`: a marker-bearing name is dispatched to
`getSelector` unchanged; a bare name is a raw lookup that fails with the
not-initialized error when the entry is absent. -/
def get (s : DataStore) (name : String) : Except StoreError JSValue :=
  if jsStartsWith name selectorMarker then
    getSelector s name
  else
    match alookup s.store name with
    | none => .error .notInitialized
    | some item => .ok item._data

/-- The `depNames.forEach` loop of `defineSelector`: push the qualified
selector name onto each dep's `_selectors` list unless already present;
a missing dep raises an implicit TypeError (`this.store[dep]` is `undefined`)
after the earlier deps were already mutated. -/
def registerDeps (s : DataStore) (qualified : String) :
    List String → DataStore × Option StoreError
  | [] => (s, none)
  | dep :: rest =>
    match alookup s.store dep with
    | none => (s, some .typeError)
    | some item =>
      let item' :=
        if item._selectors.contains qualified then item
        else { item with _selectors := item._selectors ++ [qualified] }
      registerDeps { s with store := aset s.store dep item' } qualified rest

/-- `DataStore.defineSelector(selectorName, depNames, transformer)`: throw the
explicit TypeError for a non-string name, qualify the name, register the deps
(possibly crashing part-way), then install the new entry with an empty
listener list.  `depNames` is modelled already normalized to a list (the JS
single-name case wraps it in an array first). -/
def defineSelector (s : DataStore) (selectorName : JSValue) (depNames : List String)
    (transformer : Transformer) : DataStore × Option StoreError :=
  match selectorName with
  | .vStr nameStr =>
    let qualified := qualifySelector nameStr
    match registerDeps s qualified depNames with
    | (s', some e) => (s', some e)
    | (s', none) =>
      ({ s' with selectors := aset s'.selectors qualified ⟨transformer, depNames, []⟩ }, none)
  | _ => (s, some .invalidArgument)

/-- A handle's `remove()`: set the handle's `_removed` flag, then replace the
owning list with a fresh array holding only the handles whose flag is unset.
The in-flight `forEach` of a notification pass keeps iterating the old array,
which is never mutated. -/
def execRemove (s : DataStore) : RemoveAction → DataStore
  | .removeData name hid =>
    let flags := if s.removedFlags.contains hid then s.removedFlags else hid :: s.removedFlags
    { s with
      removedFlags := flags
      listeners :=
        aset s.listeners name
          (((alookup s.listeners name).getD []).filter (fun h => !flags.contains h.id)) }
  | .removeSelector selName hid =>
    let flags := if s.removedFlags.contains hid then s.removedFlags else hid :: s.removedFlags
    match alookup s.selectors selName with
    | none => { s with removedFlags := flags }
    | some entry =>
      { s with
        removedFlags := flags
        selectors :=
          aset s.selectors selName
            { entry with _listeners := entry._listeners.filter (fun h => !flags.contains h.id) } }

/-- Run the actions of one callback invocation, in order. -/
def execRemoves (s : DataStore) (acts : List RemoveAction) : DataStore :=
  acts.foldl execRemove s

/-- `DataStore.addDataListener(targetName, onChange, executeImmediately)`:
ensure the entry exists, push a fresh handle, and when `executeImmediately`
call the callback once with the current value (its second parameter being
`undefined`, since the immediate call passes a single argument). -/
def addDataListener (s : DataStore) (targetName : String) (acts : List RemoveAction)
    (executeImmediately : Bool) : DataStore × List Event × Option StoreError :=
  let s1 := initDataStoreItem s targetName JSValue.vUndefined
  let h : Handle := ⟨s1.nextId, acts⟩
  let s2 :=
    { s1 with
      listeners := aset s1.listeners targetName (((alookup s1.listeners targetName).getD []) ++ [h])
      nextId := s1.nextId + 1 }
  if executeImmediately then
    match alookup s2.store targetName with
    | none => (s2, [], some .typeError)
    | some item =>
      (execRemoves s2 acts, [Event.dataCall h.id item._data JSValue.vUndefined], none)
  else
    (s2, [], none)

/-- `DataStore.addSelectorListener(selectorName, onChange, executeImmediately)`:
qualify the name, push a fresh handle onto the selector's listener list (an
implicit TypeError when the selector was never defined), and when
`executeImmediately` call the callback once with the freshly computed value. -/
def addSelectorListener (s : DataStore) (rawName : String) (acts : List RemoveAction)
    (executeImmediately : Bool) : DataStore × List Event × Option StoreError :=
  let selectorName := qualifySelector rawName
  match alookup s.selectors selectorName with
  | none => (s, [], some .typeError)
  | some entry =>
    let h : Handle := ⟨s.nextId, acts⟩
    let s2 :=
      { s with
        selectors := aset s.selectors selectorName { entry with _listeners := entry._listeners ++ [h] }
        nextId := s.nextId + 1 }
    if executeImmediately then
      match getSelector s2 selectorName with
      | .error e => (s2, [], some e)
      | .ok v => (execRemoves s2 acts, [Event.selectorCall h.id v], none)
    else
      (s2, [], none)

/-- The data-listener loop of `update` (`this.listeners[name].forEach`): the
array is read once, so the pass iterates this snapshot even when a callback
replaces the stored list; each callback is invoked with
`(newValue, previousValue)` and its actions are executed. -/
def fireDataListeners (newV prevV : JSValue) :
    List Handle → DataStore → DataStore × List Event
  | [], s => (s, [])
  | h :: rest, s =>
    let s1 := execRemoves s h.actions
    let (s2, evs) := fireDataListeners newV prevV rest s1
    (s2, Event.dataCall h.id newV prevV :: evs)

/-- One selector's listener loop in `update`: each callback is invoked with
`this.getSelector(selectorName)`, recomputed at call time against the current
state; a computation failure propagates as a thrown error, ending the pass. -/
def fireSelectorListeners (selName : String) :
    List Handle → DataStore → DataStore × List Event × Option StoreError
  | [], s => (s, [], none)
  | h :: rest, s =>
    match getSelector s selName with
    | .error e => (s, [], some e)
    | .ok v =>
      let s1 := execRemoves s h.actions
      let (s2, evs, err) := fireSelectorListeners selName rest s1
      (s2, Event.selectorCall h.id v :: evs, err)

/-- The `depSelectors.forEach` loop of `update`: for each dependent selector
in registration order, read its current listener list
(`this.selectors[selectorName]._listeners`, an implicit TypeError when the
selector entry is missing) and fire that snapshot. -/
def fireDepSelectors : List String → DataStore → DataStore × List Event × Option StoreError
  | [], s => (s, [], none)
  | selName :: rest, s =>
    match alookup s.selectors selName with
    | none => (s, [], some .typeError)
    | some entry =>
      match fireSelectorListeners selName entry._listeners s with
      | (s1, evs1, some e) => (s1, evs1, some e)
      | (s1, evs1, none) =>
        let (s2, evs2, err) := fireDepSelectors rest s1
        (s2, evs1 ++ evs2, err)

/-- `DataStore.update(name, data)`: ensure the entry, compare against the
previous value, and when different replace the stored value, fire the direct
listeners with `(data, prevData)`, then fire each dependent selector's
listeners with the recomputed selector value. -/
def update (s : DataStore) (name : String) (data : JSValue) :
    DataStore × List Event × Option StoreError :=
  let s0 := initDataStoreItem s name JSValue.vUndefined
  match alookup s0.store name with
  | none => (s0, [], some .typeError)
  | some item =>
    if compareValuesDiff data item._data = false then
      (s0, [], none)
    else
      let s1 := { s0 with store := aset s0.store name { item with _data := data } }
      let snapshot := (alookup s1.listeners name).getD []
      let (s2, evs1) := fireDataListeners data item._data snapshot s1
      match fireDepSelectors item._selectors s2 with
      | (s3, evs2, err) => (s3, evs1 ++ evs2, err)

/-- The current listener list of a selector (empty when undefined); used to
state expected notification traces. -/
def selListeners (s : DataStore) (selName : String) : List Handle :=
  match alookup s.selectors selName with
  | some entry => entry._listeners
  | none => []

/-- Whether an `Except` result is a success. -/
def isOkE (e : Except StoreError JSValue) : Bool :=
  match e with
  | .ok _ => true
  | .error _ => false

/-- The computed value of a selector, defaulting to `undefined` on error;
used to state expected notification traces. -/
def getSelectorD (s : DataStore) (selName : String) : JSValue :=
  match getSelector s selName with
  | .ok v => v
  | .error _ => JSValue.vUndefined

/-- Every handle currently reachable from some listener list of the store. -/
def allHandles (s : DataStore) : List Handle :=
  (s.listeners.map Prod.snd).flatten ++ (s.selectors.map (fun p => p.2._listeners)).flatten

/-- Decidable form of "no listener list of the store holds a handle with this
id". -/
def absentIdB (s : DataStore) (k : Nat) : Bool :=
  (allHandles s).all (fun h => h.id != k)

/-! Lemmas about `alookup` and `aset`. -/

theorem find?_map_replace {α : Type} (m : List (String × α)) (k : String) (v : α) :
    (m.map (fun p => if p.1 == k then (k, v) else p)).find? (fun p => p.1 == k)
      = if m.any (fun p => p.1 == k) then some (k, v) else none := by
  induction m with
  | nil => rfl
  | cons p rest ih =>
    by_cases hp : (p.1 == k) = true
    · simp only [List.map_cons, if_pos hp, List.any_cons, hp, Bool.true_or]
      rw [List.find?_cons]
      simp
    · have hf : (p.1 == k) = false := by simpa using hp
      simp only [List.map_cons, hf, Bool.false_eq_true, if_false, List.any_cons, Bool.false_or]
      rw [List.find?_cons, hf]
      dsimp only
      exact ih

theorem find?_map_replace_ne {α : Type} (m : List (String × α)) (k k' : String) (v : α)
    (hne : k' ≠ k) :
    (m.map (fun p => if p.1 == k then (k, v) else p)).find? (fun p => p.1 == k')
      = m.find? (fun p => p.1 == k') := by
  induction m with
  | nil => rfl
  | cons p rest ih =>
    by_cases hp : (p.1 == k) = true
    · have hpk : p.1 = k := by simpa using hp
      have hnew : (((k, v) : String × α).1 == k') = false := by
        simp [beq_eq_false_iff_ne]
        exact Ne.symm hne
      have hold : (p.1 == k') = false := by
        rw [hpk]
        simp [beq_eq_false_iff_ne]
        exact Ne.symm hne
      simp only [List.map_cons, if_pos hp]
      rw [List.find?_cons, List.find?_cons, hnew, hold]
      dsimp only
      exact ih
    · simp only [List.map_cons, if_neg hp]
      by_cases hq : (p.1 == k') = true
      · rw [List.find?_cons, List.find?_cons, hq]
      · have hqf : (p.1 == k') = false := by simpa using hq
        rw [List.find?_cons, List.find?_cons, hqf]
        dsimp only
        exact ih

theorem alookup_aset_self {α : Type} (m : List (String × α)) (k : String) (v : α) :
    alookup (aset m k v) k = some v := by
  unfold alookup aset
  by_cases h : m.any (fun p => p.1 == k) = true
  · rw [if_pos h, find?_map_replace, if_pos h]
    rfl
  · rw [if_neg h, List.find?_append]
    have hnone : m.find? (fun p => p.1 == k) = none := by
      rw [List.find?_eq_none]
      intro x hx hpx
      exact h (List.any_eq_true.mpr ⟨x, hx, hpx⟩)
    rw [hnone]
    simp

theorem alookup_aset_ne {α : Type} (m : List (String × α)) (k k' : String) (v : α)
    (hne : k' ≠ k) : alookup (aset m k v) k' = alookup m k' := by
  unfold alookup aset
  by_cases h : m.any (fun p => p.1 == k) = true
  · rw [if_pos h, find?_map_replace_ne m k k' v hne]
  · rw [if_neg h, List.find?_append]
    have hlast : ([(k, v)].find? (fun p => p.1 == k')) = none := by
      rw [List.find?_eq_none]
      intro x hx hpx
      simp at hx
      rw [hx] at hpx
      simp [beq_iff_eq] at hpx
      exact hne (hpx.symm ▸ rfl)
    rw [hlast]
    simp

theorem alookup_eq_some {α : Type} {m : List (String × α)} {k : String} {x : α}
    (h : alookup m k = some x) : ∃ p, p ∈ m ∧ p.2 = x := by
  unfold alookup at h
  cases hf : m.find? (fun p => p.1 == k) with
  | none => rw [hf] at h; simp at h
  | some p =>
    rw [hf] at h
    simp at h
    exact ⟨p, List.mem_of_find?_eq_some hf, h⟩

/-- The absence predicate: no listener list of the store holds a handle with
id `k`. -/
def AbsentId (s : DataStore) (k : Nat) : Prop :=
  ∀ h ∈ allHandles s, h.id ≠ k

theorem absentIdB_iff {s : DataStore} {k : Nat} : absentIdB s k = true ↔ AbsentId s k := by
  unfold absentIdB AbsentId
  rw [List.all_eq_true]
  constructor
  · intro hall h hm
    have := hall h hm
    simpa using this
  · intro hall h hm
    simpa using hall h hm

theorem mem_allHandles_of_data {s : DataStore} {n : String} {h : Handle}
    (hm : h ∈ (alookup s.listeners n).getD []) : h ∈ allHandles s := by
  unfold allHandles
  apply List.mem_append.mpr
  left
  rw [List.mem_flatten]
  cases hf : alookup s.listeners n with
  | none => rw [hf] at hm; simp at hm
  | some L =>
    rw [hf] at hm
    simp at hm
    obtain ⟨p, hp, hp2⟩ := alookup_eq_some hf
    exact ⟨L, hp2 ▸ List.mem_map_of_mem Prod.snd hp, hm⟩

theorem mem_allHandles_of_sel {s : DataStore} {sn : String} {h : Handle}
    (hm : h ∈ selListeners s sn) : h ∈ allHandles s := by
  unfold allHandles
  apply List.mem_append.mpr
  right
  rw [List.mem_flatten]
  unfold selListeners at hm
  cases hf : alookup s.selectors sn with
  | none => rw [hf] at hm; simp at hm
  | some entry =>
    rw [hf] at hm
    dsimp only at hm
    obtain ⟨p, hp, hp2⟩ := alookup_eq_some hf
    refine ⟨entry._listeners, ?_, hm⟩
    have h2 : (fun q : String × SelectorEntry => q.2._listeners) p = entry._listeners := by
      show p.2._listeners = entry._listeners
      rw [hp2]
    exact h2 ▸ List.mem_map_of_mem (fun q => q.2._listeners) hp

theorem mem_flatten_map_aset {α β : Type} (m : List (String × α)) (k : String) (v : α)
    (f : String × α → List β) {x : β}
    (hx : x ∈ ((aset m k v).map f).flatten) :
    x ∈ f (k, v) ∨ ∃ p, p ∈ m ∧ p.1 ≠ k ∧ x ∈ f p := by
  unfold aset at hx
  by_cases h : m.any (fun p => p.1 == k) = true
  · rw [if_pos h, List.mem_flatten] at hx
    obtain ⟨l, hl, hxl⟩ := hx
    rw [List.mem_map] at hl
    obtain ⟨q0, hq0, rfl⟩ := hl
    rw [List.mem_map] at hq0
    obtain ⟨q, hq, rfl⟩ := hq0
    by_cases hqk : (q.1 == k) = true
    · rw [if_pos hqk] at hxl
      exact Or.inl hxl
    · rw [if_neg hqk] at hxl
      have hne : q.1 ≠ k := by simpa using hqk
      exact Or.inr ⟨q, hq, hne, hxl⟩
  · rw [if_neg h, List.map_append, List.flatten_append, List.mem_append] at hx
    rcases hx with hx | hx
    · rw [List.mem_flatten] at hx
      obtain ⟨l, hl, hxl⟩ := hx
      rw [List.mem_map] at hl
      obtain ⟨q, hq, rfl⟩ := hl
      have hne : q.1 ≠ k := by
        intro hqk
        exact h (List.any_eq_true.mpr ⟨q, hq, by simp [hqk]⟩)
      exact Or.inr ⟨q, hq, hne, hxl⟩
    · simp at hx
      exact Or.inl hx

theorem allHandles_eq (s1 s2 : DataStore) (hl : s1.listeners = s2.listeners)
    (hs : s1.selectors = s2.selectors) : allHandles s1 = allHandles s2 := by
  unfold allHandles
  rw [hl, hs]

theorem allHandles_listeners_aset {s t : DataStore} {n : String}
    {L : List Handle} {h : Handle}
    (hmem : h ∈ allHandles t)
    (htl : t.listeners = aset s.listeners n L) (hts : t.selectors = s.selectors) :
    h ∈ L ∨ h ∈ allHandles s := by
  unfold allHandles at hmem ⊢
  rw [htl, hts, List.mem_append] at hmem
  rcases hmem with hmem | hmem
  · rcases mem_flatten_map_aset s.listeners n L Prod.snd hmem with hx | ⟨p, hp, _, hx⟩
    · exact Or.inl hx
    · exact Or.inr (List.mem_append.mpr (Or.inl
        (List.mem_flatten.mpr ⟨p.2, List.mem_map_of_mem Prod.snd hp, hx⟩)))
  · exact Or.inr (List.mem_append.mpr (Or.inr hmem))

theorem allHandles_selectors_aset {s t : DataStore} {n : String}
    {e : SelectorEntry} {h : Handle}
    (hmem : h ∈ allHandles t)
    (hts : t.selectors = aset s.selectors n e) (htl : t.listeners = s.listeners) :
    h ∈ e._listeners ∨ h ∈ allHandles s := by
  unfold allHandles at hmem ⊢
  rw [htl, hts, List.mem_append] at hmem
  rcases hmem with hmem | hmem
  · exact Or.inr (List.mem_append.mpr (Or.inl hmem))
  · rcases mem_flatten_map_aset s.selectors n e (fun p => p.2._listeners) hmem with hx | ⟨p, hp, _, hx⟩
    · exact Or.inl hx
    · exact Or.inr (List.mem_append.mpr (Or.inr
        (List.mem_flatten.mpr ⟨p.2._listeners,
          List.mem_map_of_mem (fun q => q.2._listeners) hp, hx⟩)))

theorem execRemove_absent {s : DataStore} {k : Nat} (a : RemoveAction)
    (habs : AbsentId s k) : AbsentId (execRemove s a) k := by
  cases a with
  | removeData name hid =>
    intro h hm
    unfold execRemove at hm
    dsimp only at hm
    rcases allHandles_listeners_aset hm rfl rfl with hx | hx
    · exact habs h (mem_allHandles_of_data (List.mem_filter.mp hx).1)
    · exact habs h hx
  | removeSelector selName hid =>
    intro h hm
    unfold execRemove at hm
    dsimp only at hm
    cases he : alookup s.selectors selName with
    | none =>
      rw [he] at hm
      dsimp only at hm
      exact habs h (allHandles_eq _ s rfl rfl ▸ hm)
    | some entry =>
      rw [he] at hm
      dsimp only at hm
      rcases allHandles_selectors_aset hm rfl rfl with hx | hx
      · have hsel : h ∈ selListeners s selName := by
          unfold selListeners
          rw [he]
          exact (List.mem_filter.mp hx).1
        exact habs h (mem_allHandles_of_sel hsel)
      · exact habs h hx

theorem execRemoves_absent {k : Nat} (acts : List RemoveAction) :
    ∀ {s : DataStore}, AbsentId s k → AbsentId (execRemoves s acts) k := by
  induction acts with
  | nil => intro s habs; exact habs
  | cons a rest ih =>
    intro s habs
    exact ih (execRemove_absent a habs)

theorem fireDataListeners_events (newV prevV : JSValue) (snap : List Handle) :
    ∀ s : DataStore, (fireDataListeners newV prevV snap s).2
      = snap.map (fun h => Event.dataCall h.id newV prevV) := by
  induction snap with
  | nil => intro s; rfl
  | cons h rest ih =>
    intro s
    unfold fireDataListeners
    dsimp only
    rcases hx : fireDataListeners newV prevV rest (execRemoves s h.actions) with ⟨s2, evs⟩
    dsimp only
    have h2 := ih (execRemoves s h.actions)
    rw [hx] at h2
    dsimp only at h2
    rw [List.map_cons, h2]

theorem fireDataListeners_absent {k : Nat} (newV prevV : JSValue) (snap : List Handle) :
    ∀ {s : DataStore}, AbsentId s k → AbsentId (fireDataListeners newV prevV snap s).1 k := by
  induction snap with
  | nil => intro s habs; exact habs
  | cons h rest ih =>
    intro s habs
    unfold fireDataListeners
    dsimp only
    rcases hx : fireDataListeners newV prevV rest (execRemoves s h.actions) with ⟨s2, evs⟩
    dsimp only
    have h2 := ih (execRemoves_absent h.actions habs)
    rw [hx] at h2
    exact h2

theorem fireSelectorListeners_ids {k : Nat} (selName : String) (snap : List Handle)
    (hsnap : ∀ h ∈ snap, h.id ≠ k) :
    ∀ {s : DataStore}, AbsentId s k →
      (∀ e ∈ (fireSelectorListeners selName snap s).2.1, eventId e ≠ k)
        ∧ AbsentId (fireSelectorListeners selName snap s).1 k := by
  induction snap with
  | nil =>
    intro s habs
    exact ⟨fun e he => absurd he (List.not_mem_nil e), habs⟩
  | cons h rest ih =>
    intro s habs
    unfold fireSelectorListeners
    dsimp only
    cases hg : getSelector s selName with
    | error e =>
      dsimp only
      exact ⟨fun e he => absurd he (List.not_mem_nil e), habs⟩
    | ok v =>
      dsimp only
      rcases hx : fireSelectorListeners selName rest (execRemoves s h.actions) with ⟨s2, evs, err⟩
      dsimp only
      have hrest := ih (fun h hm => hsnap h (List.mem_cons_of_mem _ hm))
        (execRemoves_absent h.actions habs)
      rw [hx] at hrest
      refine ⟨?_, hrest.2⟩
      intro ev hev
      rcases List.mem_cons.mp hev with rfl | hev
      · exact hsnap h (List.mem_cons_self h rest)
      · exact hrest.1 ev hev

theorem fireDepSelectors_ids {k : Nat} (deps : List String) :
    ∀ {s : DataStore}, AbsentId s k →
      (∀ e ∈ (fireDepSelectors deps s).2.1, eventId e ≠ k)
        ∧ AbsentId (fireDepSelectors deps s).1 k := by
  induction deps with
  | nil =>
    intro s habs
    exact ⟨fun e he => absurd he (List.not_mem_nil e), habs⟩
  | cons sn rest ih =>
    intro s habs
    unfold fireDepSelectors
    dsimp only
    cases he : alookup s.selectors sn with
    | none =>
      dsimp only
      exact ⟨fun e hev => absurd hev (List.not_mem_nil e), habs⟩
    | some entry =>
      dsimp only
      have hsnap : ∀ h ∈ entry._listeners, h.id ≠ k := by
        intro h hm
        apply habs
        apply mem_allHandles_of_sel
        unfold selListeners
        rw [he]
        exact hm
      have hpass := fireSelectorListeners_ids sn entry._listeners hsnap habs
      rcases hfsl : fireSelectorListeners sn entry._listeners s with ⟨s1, evs1, err1⟩
      rw [hfsl] at hpass
      cases err1 with
      | some e =>
        dsimp only
        exact ⟨hpass.1, hpass.2⟩
      | none =>
        dsimp only
        rcases hfd : fireDepSelectors rest s1 with ⟨s2, evs2, err2⟩
        dsimp only
        have hrest := ih hpass.2
        rw [hfd] at hrest
        refine ⟨?_, hrest.2⟩
        intro ev hev
        rcases List.mem_append.mp hev with hev | hev
        · exact hpass.1 ev hev
        · exact hrest.1 ev hev

theorem initDataStoreItem_present {s : DataStore} {name : String} (v : JSValue)
    (h : (alookup s.store name).isSome = true) : initDataStoreItem s name v = s := by
  unfold initDataStoreItem
  rw [if_pos h]

theorem initDataStoreItem_absent {s : DataStore} {k : Nat} (name : String) (v : JSValue)
    (habs : AbsentId s k) : AbsentId (initDataStoreItem s name v) k := by
  unfold initDataStoreItem
  by_cases h : (alookup s.store name).isSome = true
  · rw [if_pos h]
    exact habs
  · rw [if_neg h]
    intro hh hm
    rcases allHandles_listeners_aset hm rfl rfl with hx | hx
    · exact absurd hx (List.not_mem_nil hh)
    · exact habs hh hx

/-- Absence of an id is preserved by one whole `update` call, and no event of
that call carries the absent id: a handle whose `remove()` has returned (so
it sits in no listener list) is never invoked by a subsequent update. -/
theorem update_ids {k : Nat} {s : DataStore} (name : String) (data : JSValue)
    (habs : AbsentId s k) :
    (∀ e ∈ (update s name data).2.1, eventId e ≠ k)
      ∧ AbsentId (update s name data).1 k := by
  have habs0 : AbsentId (initDataStoreItem s name JSValue.vUndefined) k :=
    initDataStoreItem_absent name JSValue.vUndefined habs
  unfold update
  dsimp only
  cases hit : alookup (initDataStoreItem s name JSValue.vUndefined).store name with
  | none =>
    dsimp only
    exact ⟨fun e he => absurd he (List.not_mem_nil e), habs0⟩
  | some item =>
    dsimp only
    by_cases hc : compareValuesDiff data item._data = false
    · rw [if_pos hc]
      exact ⟨fun e he => absurd he (List.not_mem_nil e), habs0⟩
    · rw [if_neg hc]
      dsimp only
      set s0 := initDataStoreItem s name JSValue.vUndefined with hs0
      set s1 : DataStore := { s0 with store := aset s0.store name { item with _data := data } }
        with hs1
      have habs1 : AbsentId s1 k := by
        intro hh hm
        exact habs0 hh (allHandles_eq s1 s0 rfl rfl ▸ hm)
      have hsnap : ∀ hh ∈ (alookup s1.listeners name).getD [], hh.id ≠ k :=
        fun hh hm => habs1 hh (mem_allHandles_of_data hm)
      rcases hfdl : fireDataListeners data item._data ((alookup s1.listeners name).getD []) s1
        with ⟨s2, evs1⟩
      have habs2 : AbsentId s2 k := by
        have := fireDataListeners_absent data item._data
          ((alookup s1.listeners name).getD []) habs1
        rw [hfdl] at this
        exact this
      have hevs1 : ∀ e ∈ evs1, eventId e ≠ k := by
        have := fireDataListeners_events data item._data ((alookup s1.listeners name).getD []) s1
        rw [hfdl] at this
        dsimp only at this
        intro e he
        rw [this] at he
        obtain ⟨hh, hhm, rfl⟩ := List.mem_map.mp he
        exact hsnap hh hhm
      rcases hfds : fireDepSelectors item._selectors s2 with ⟨s3, evs2, err⟩
      have hrest := fireDepSelectors_ids item._selectors habs2
      rw [hfds] at hrest
      dsimp only
      refine ⟨?_, hrest.2⟩
      intro e he
      rcases List.mem_append.mp he with he | he
      · exact hevs1 e he
      · exact hrest.1 e he

theorem getSelector_eq_of_isOk {s : DataStore} {sn : String}
    (h : isOkE (getSelector s sn) = true) :
    getSelector s sn = Except.ok (getSelectorD s sn) := by
  unfold getSelectorD
  cases hg : getSelector s sn with
  | ok v => rfl
  | error e =>
    rw [hg] at h
    simp [isOkE] at h

theorem fireDataListeners_pure (newV prevV : JSValue) (snap : List Handle)
    (hfree : ∀ h ∈ snap, h.actions = []) :
    ∀ s : DataStore, fireDataListeners newV prevV snap s
      = (s, snap.map (fun h => Event.dataCall h.id newV prevV)) := by
  induction snap with
  | nil => intro s; rfl
  | cons h rest ih =>
    intro s
    unfold fireDataListeners
    dsimp only
    rw [hfree h (List.mem_cons_self h rest)]
    rw [show execRemoves s [] = s from rfl]
    rw [ih (fun h hm => hfree h (List.mem_cons_of_mem _ hm)) s]
    rfl

theorem fireSelectorListeners_pure (selName : String) (snap : List Handle)
    (hfree : ∀ h ∈ snap, h.actions = []) {s : DataStore} {val : JSValue}
    (hok : getSelector s selName = Except.ok val) :
    fireSelectorListeners selName snap s
      = (s, snap.map (fun h => Event.selectorCall h.id val), none) := by
  induction snap with
  | nil => rfl
  | cons h rest ih =>
    unfold fireSelectorListeners
    dsimp only
    rw [hok]
    dsimp only
    rw [hfree h (List.mem_cons_self h rest)]
    rw [show execRemoves s [] = s from rfl]
    rw [ih (fun h hm => hfree h (List.mem_cons_of_mem _ hm))]
    rfl

theorem fireDepSelectors_pure (deps : List String) {s : DataStore}
    (hdeps : ∀ sn ∈ deps, ∃ entry, alookup s.selectors sn = some entry
      ∧ (∀ h ∈ entry._listeners, h.actions = [])
      ∧ isOkE (getSelector s sn) = true) :
    fireDepSelectors deps s
      = (s, (deps.map (fun sn => (selListeners s sn).map
              (fun h => Event.selectorCall h.id (getSelectorD s sn)))).flatten,
         none) := by
  induction deps with
  | nil => rfl
  | cons sn rest ih =>
    obtain ⟨entry, he, hfree, hok⟩ := hdeps sn (List.mem_cons_self sn rest)
    unfold fireDepSelectors
    dsimp only
    rw [he]
    dsimp only
    rw [fireSelectorListeners_pure sn entry._listeners hfree (getSelector_eq_of_isOk hok)]
    dsimp only
    rw [ih (fun sn₂ hm => hdeps sn₂ (List.mem_cons_of_mem _ hm))]
    dsimp only
    rw [List.map_cons, List.flatten_cons]
    have hsel : selListeners s sn = entry._listeners := by
      unfold selListeners
      rw [he]
    rw [hsel]

/-- C1: when the comparator reports the new value different from the stored
one, `update` replaces the stored value and then fires every direct listener
exactly once, in registration order, with `(newValue, previousValue)`;
afterwards, for each dependent selector in registration order, every one of
that selector's listeners is fired exactly once with the single recomputed
selector value.  Listeners are assumed to perform no removals, each dependent
selector to be defined, and its computation to succeed. -/
theorem update_fires_listeners_in_order (s : DataStore) (name : String) (v : JSValue)
    (item : StoreItem)
    (hitem : alookup s.store name = some item)
    (hdiff : compareValuesDiff v item._data = true)
    (hfree : ∀ h ∈ (alookup s.listeners name).getD [], h.actions = [])
    (hsels : ∀ sn ∈ item._selectors, ∃ entry,
        alookup ({ s with store := aset s.store name { item with _data := v } }
            : DataStore).selectors sn = some entry
        ∧ (∀ h ∈ entry._listeners, h.actions = [])
        ∧ isOkE (getSelector { s with store := aset s.store name { item with _data := v } } sn)
            = true) :
    update s name v
      = ({ s with store := aset s.store name { item with _data := v } },
         ((alookup s.listeners name).getD []).map (fun h => Event.dataCall h.id v item._data)
           ++ (item._selectors.map (fun sn => (selListeners s sn).map
                (fun h => Event.selectorCall h.id
                  (getSelectorD { s with store := aset s.store name { item with _data := v } } sn)))).flatten,
         none) := by
  have hps : (alookup s.store name).isSome = true := by rw [hitem]; rfl
  have h0 : initDataStoreItem s name JSValue.vUndefined = s :=
    initDataStoreItem_present _ hps
  unfold update
  dsimp only
  rw [h0, hitem]
  try dsimp only
  rw [if_neg (by simp [hdiff])]
  try dsimp only
  rw [fireDataListeners_pure v item._data ((alookup s.listeners name).getD []) hfree]
  try dsimp only
  rw [fireDepSelectors_pure item._selectors hsels]
  rfl

/-- A concrete doubling transformer used by witnesses. -/
def doubleTransformer : Transformer := fun vs =>
  match vs with
  | [JSValue.vNum n] => JSValue.vNum (2 * n)
  | _ => JSValue.vUndefined

/-- A concrete store for the C1 witness: value `x = 1` with one direct
listener (id 0) and one dependent selector `selector::d` doubling `x` with
one listener (id 1). -/
def c1Store : DataStore :=
  { store := [("x", ⟨JSValue.vNum 1, ["selector::d"]⟩)]
    listeners := [("x", [⟨0, []⟩])]
    selectors := [("selector::d", ⟨doubleTransformer, ["x"], [⟨1, []⟩]⟩)]
    removedFlags := []
    nextId := 2 }

theorem update_fires_listeners_in_order_witness :
    update c1Store "x" (JSValue.vNum 5)
      = ({ c1Store with
            store := aset c1Store.store "x" ⟨JSValue.vNum 5, ["selector::d"]⟩ },
         [Event.dataCall 0 (JSValue.vNum 5) (JSValue.vNum 1),
          Event.selectorCall 1 (JSValue.vNum 10)],
         none) := by
  rw [update_fires_listeners_in_order c1Store "x" (JSValue.vNum 5)
    ⟨JSValue.vNum 1, ["selector::d"]⟩ rfl rfl
    (by decide)
    (by
      intro sn hm
      simp at hm
      subst hm
      exact ⟨⟨doubleTransformer, ["x"], [⟨1, []⟩]⟩, rfl, by intro h hm; simp at hm; rw [hm], rfl⟩)]
  rfl

/-- The stored value for the C2 counterexample. -/
def c2Stored : JSValue := vObj [("x", vNum 1), ("y", vNum 1)]

/-- First updated value: judged equal to the stored value (the comparator only
inspects the first key, `x`). -/
def c2v1 : JSValue := vObj [("x", vNum 1), ("y", vNum 2)]

/-- Second updated value: same fields as `c2v1` in reversed order, so the
comparator (inspecting `c2v2`'s first key `y`) judges it equal to `c2v1` but
different from the stored value. -/
def c2v2 : JSValue := vObj [("y", vNum 2), ("x", vNum 1)]

/-- A store holding `n = c2Stored` with one direct listener. -/
def c2Store : DataStore :=
  { store := [("n", ⟨c2Stored, []⟩)]
    listeners := [("n", [⟨0, []⟩])]
    selectors := []
    removedFlags := []
    nextId := 1 }

/-- C2 counterexample: `c2v1` and `c2v2` are judged equal by the comparator
(in both directions), yet `update(n, c2v2)` right after `update(n, c2v1)`
fires a listener and mutates the store — because the first update was itself
judged a no-op against the previously stored value, so the second compares
`c2v2` against that older value and finds a difference. -/
theorem update_equal_pair_counterexample :
    compareValuesDiff c2v1 c2v2 = false
    ∧ compareValuesDiff c2v2 c2v1 = false
    ∧ (update c2Store "n" c2v1).2.1 = []
    ∧ (update (update c2Store "n" c2v1).1 "n" c2v2).2.1
        = [Event.dataCall 0 c2v2 c2Stored]
    ∧ (update (update c2Store "n" c2v1).1 "n" c2v2).2.1 ≠ []
    ∧ (alookup (update (update c2Store "n" c2v1).1 "n" c2v2).1.store "n").map
        (fun it => it._data) = some c2v2 := by
  refine ⟨rfl, rfl, rfl, rfl, ?_, rfl⟩
  intro hcon
  rw [show (update (update c2Store "n" c2v1).1 "n" c2v2).2.1
      = [Event.dataCall 0 c2v2 c2Stored] from rfl] at hcon
  exact List.cons_ne_nil _ _ hcon

/-- C2 (amended): when the comparator judges `v2` equal to the value actually
stored under the name at the time of the call (in particular when the
previous `update(name, v1)` really stored `v1`), `update(name, v2)` leaves
the whole store state unchanged and invokes zero listeners. -/
theorem update_noop_when_stored_equal (s : DataStore) (name : String) (v1 v2 : JSValue)
    (item : StoreItem)
    (hitem : alookup s.store name = some item)
    (hstored : item._data = v1)
    (heq : compareValuesDiff v2 v1 = false) :
    update s name v2 = (s, [], none) := by
  have hps : (alookup s.store name).isSome = true := by rw [hitem]; rfl
  have h0 : initDataStoreItem s name JSValue.vUndefined = s :=
    initDataStoreItem_present _ hps
  unfold update
  dsimp only
  rw [h0, hitem]
  try dsimp only
  rw [if_pos (by rw [hstored]; exact heq)]

theorem update_noop_when_stored_equal_witness :
    update c2Store "n" c2v1 = (c2Store, [], none) :=
  update_noop_when_stored_equal c2Store "n" c2Stored c2v1 ⟨c2Stored, []⟩ rfl rfl rfl

/-- The empty store (the state of the module-level singleton right after
construction). -/
def emptyStore : DataStore := ⟨[], [], [], [], 0⟩

/-- C4: `get` on a never-initialized raw name fails with the
not-initialized error instead of returning a value, and `get`/`getSelector`
on a marker-bearing name with no selector entry fail with the
undefined-selector error. -/
theorem get_error_on_unknown (s : DataStore) (rawName selName : String)
    (h1 : jsStartsWith rawName selectorMarker = false)
    (h2 : alookup s.store rawName = none)
    (h3 : jsStartsWith selName selectorMarker = true)
    (h4 : alookup s.selectors selName = none) :
    get s rawName = Except.error StoreError.notInitialized
      ∧ get s selName = Except.error StoreError.undefinedSelector
      ∧ getSelector s selName = Except.error StoreError.undefinedSelector := by
  refine ⟨?_, ?_, ?_⟩
  · unfold get
    rw [if_neg (by simp [h1]), h2]
  · unfold get
    rw [if_pos h3]
    unfold getSelector
    rw [h4]
  · unfold getSelector
    rw [h4]

theorem get_error_on_unknown_witness :
    get emptyStore "a" = Except.error StoreError.notInitialized
      ∧ get emptyStore "selector::z" = Except.error StoreError.undefinedSelector
      ∧ getSelector emptyStore "selector::z" = Except.error StoreError.undefinedSelector :=
  get_error_on_unknown emptyStore "a" "selector::z" rfl rfl rfl rfl

theorem registerDeps_selectors (q : String) (deps : List String) :
    ∀ s : DataStore, ((registerDeps s q deps).1).selectors = s.selectors := by
  induction deps with
  | nil => intro s; rfl
  | cons dep rest ih =>
    intro s
    unfold registerDeps
    dsimp only
    cases hl : alookup s.store dep with
    | none => rfl
    | some item =>
      dsimp only
      rw [ih]

theorem registerDeps_err_of_missing (q : String) (deps : List String) :
    ∀ s : DataStore, (∃ d ∈ deps, alookup s.store d = none) →
      (registerDeps s q deps).2 = some StoreError.typeError := by
  induction deps with
  | nil =>
    intro s hmiss
    obtain ⟨d, hd, _⟩ := hmiss
    exact absurd hd (List.not_mem_nil d)
  | cons dep rest ih =>
    intro s hmiss
    unfold registerDeps
    dsimp only
    cases hl : alookup s.store dep with
    | none => rfl
    | some item =>
      dsimp only
      obtain ⟨d, hd, hnone⟩ := hmiss
      rcases List.mem_cons.mp hd with rfl | hd
      · rw [hl] at hnone
        cases hnone
      · apply ih
        refine ⟨d, hd, ?_⟩
        have hne : d ≠ dep := by
          intro hcon
          rw [hcon, hl] at hnone
          cases hnone
        dsimp only
        rw [alookup_aset_ne _ _ _ _ hne]
        exact hnone

/-- A trivial transformer for the C5 witnesses. -/
def c5Transformer : Transformer := fun _ => JSValue.vUndefined

/-- A store holding only the value `a`; the dep `b` does not exist. -/
def c5Store : DataStore :=
  { store := [("a", ⟨JSValue.vNum 1, []⟩)]
    listeners := [("a", [])]
    selectors := []
    removedFlags := []
    nextId := 0 }

/-- C5 counterexample: `defineSelector('s', ['a','b'], t)` with `b` unknown
does fail and creates no selector entry, but it is not side-effect free: the
existing dep `a` has already had `selector::s` pushed onto its
dependent-selector list before the failure. -/
theorem defineSelector_mutates_counterexample :
    (defineSelector c5Store (JSValue.vStr "s") ["a", "b"] c5Transformer).2
        = some StoreError.typeError
    ∧ alookup (defineSelector c5Store (JSValue.vStr "s") ["a", "b"] c5Transformer).1.selectors
        "selector::s" = none
    ∧ (alookup c5Store.store "a").map (fun it => it._selectors) = some []
    ∧ (alookup (defineSelector c5Store (JSValue.vStr "s") ["a", "b"] c5Transformer).1.store
        "a").map (fun it => it._selectors) = some ["selector::s"] :=
  ⟨rfl, rfl, rfl, rfl⟩

/-- C5 (amended): a non-string name fails with the explicit invalid-argument
TypeError and modifies nothing; an unknown dep name makes the call fail with
the implicit TypeError from reading `undefined._selectors`, and in both
failure cases no selector entry is created or changed — but the
dependent-selector lists of deps processed before the missing one may already
have been modified. -/
theorem defineSelector_failure_modes (s : DataStore) (nameV : JSValue)
    (deps : List String) (tf : Transformer) :
    ((∀ str, nameV ≠ JSValue.vStr str) →
        defineSelector s nameV deps tf = (s, some StoreError.invalidArgument))
    ∧ (∀ nameStr, nameV = JSValue.vStr nameStr →
        (∃ d ∈ deps, alookup s.store d = none) →
        (defineSelector s nameV deps tf).2 = some StoreError.typeError
          ∧ ((defineSelector s nameV deps tf).1).selectors = s.selectors) := by
  constructor
  · intro hns
    cases nameV with
    | vStr str => exact absurd rfl (hns str)
    | vUndefined => rfl
    | vNull => rfl
    | vBool b => rfl
    | vNum n => rfl
    | vArr es => rfl
    | vObj fs => rfl
    | vFunc i => rfl
  · intro nameStr hstr hmiss
    subst hstr
    unfold defineSelector
    dsimp only
    have herr := registerDeps_err_of_missing (qualifySelector nameStr) deps s hmiss
    have hsel := registerDeps_selectors (qualifySelector nameStr) deps s
    rcases hr : registerDeps s (qualifySelector nameStr) deps with ⟨s', err⟩
    rw [hr] at herr hsel
    dsimp only at herr hsel
    subst herr
    dsimp only
    exact ⟨rfl, hsel⟩

theorem defineSelector_failure_modes_witness :
    defineSelector c5Store (JSValue.vNum 3) ["a"] c5Transformer
        = (c5Store, some StoreError.invalidArgument)
    ∧ (defineSelector c5Store (JSValue.vStr "s") ["a", "b"] c5Transformer).2
        = some StoreError.typeError
    ∧ ((defineSelector c5Store (JSValue.vStr "s") ["a", "b"] c5Transformer).1).selectors
        = c5Store.selectors := by
  refine ⟨(defineSelector_failure_modes c5Store (JSValue.vNum 3) ["a"] c5Transformer).1
    (by intro str h; cases h), ?_, ?_⟩
  · exact ((defineSelector_failure_modes c5Store (JSValue.vStr "s") ["a", "b"]
      c5Transformer).2 "s" rfl ⟨"b", by simp, rfl⟩).1
  · exact ((defineSelector_failure_modes c5Store (JSValue.vStr "s") ["a", "b"]
      c5Transformer).2 "s" rfl ⟨"b", by simp, rfl⟩).2

theorem initDataStoreItem_nextId (s : DataStore) (n : String) (v : JSValue) :
    (initDataStoreItem s n v).nextId = s.nextId := by
  unfold initDataStoreItem
  split <;> rfl

theorem initDataStoreItem_lookup (s : DataStore) (n : String) (v : JSValue) :
    alookup (initDataStoreItem s n v).store n
      = some ((alookup s.store n).getD ⟨v, []⟩) := by
  unfold initDataStoreItem
  by_cases h : (alookup s.store n).isSome = true
  · rw [if_pos h]
    cases hl : alookup s.store n with
    | none => rw [hl] at h; simp at h
    | some it => rfl
  · rw [if_neg h]
    dsimp only
    rw [alookup_aset_self]
    cases hl : alookup s.store n with
    | some it => rw [hl] at h; simp at h
    | none => rfl

/-- The raw value currently stored under a name (`this.store[name]._data`). -/
def storedData (s : DataStore) (n : String) : JSValue :=
  ((alookup s.store n).getD ⟨JSValue.vUndefined, []⟩)._data

theorem getSelector_push (s : DataStore) (q : String) (entry : SelectorEntry)
    (L : List Handle) (n : Nat) (hentry : alookup s.selectors q = some entry) :
    getSelector
        { s with selectors := aset s.selectors q { entry with _listeners := L }, nextId := n } q
      = getSelector s q := by
  unfold getSelector
  rw [show alookup ({ s with
      selectors := aset s.selectors q { entry with _listeners := L }, nextId := n }
        : DataStore).selectors q = some { entry with _listeners := L } from by
    dsimp only
    exact alookup_aset_self s.selectors q { entry with _listeners := L }]
  rw [hentry]

/-- C7: subscribing with `executeImmediately = true` invokes the callback
exactly once, synchronously, with the value current at call time — the stored
raw value for `addDataListener`, the freshly computed selector value for
`addSelectorListener`; with `false` the callback is not invoked at
subscription time. -/
theorem listener_execute_immediately (s : DataStore) (dname rawName : String)
    (acts : List RemoveAction) (entry : SelectorEntry) (val : JSValue)
    (hentry : alookup s.selectors (qualifySelector rawName) = some entry)
    (hval : getSelector s (qualifySelector rawName) = Except.ok val) :
    (addDataListener s dname acts true).2.1
      = [Event.dataCall s.nextId
          (storedData (initDataStoreItem s dname JSValue.vUndefined) dname) JSValue.vUndefined]
    ∧ (addDataListener s dname acts false).2.1 = []
    ∧ (addSelectorListener s rawName acts true).2.1 = [Event.selectorCall s.nextId val]
    ∧ (addSelectorListener s rawName acts false).2.1 = [] := by
  refine ⟨?_, ?_, ?_, ?_⟩
  · unfold addDataListener
    dsimp only
    rw [if_pos rfl, initDataStoreItem_lookup s dname JSValue.vUndefined]
    dsimp only
    rw [show storedData (initDataStoreItem s dname JSValue.vUndefined) dname
        = ((alookup s.store dname).getD ⟨JSValue.vUndefined, []⟩)._data from by
      unfold storedData
      rw [initDataStoreItem_lookup]
      rfl]
    rw [initDataStoreItem_nextId s dname JSValue.vUndefined]
  · unfold addDataListener
    dsimp only
    rw [if_neg (by simp)]
  · unfold addSelectorListener
    dsimp only
    rw [hentry]
    dsimp only
    rw [if_pos rfl]
    rw [getSelector_push s (qualifySelector rawName) entry
      (entry._listeners ++ [Handle.mk s.nextId acts]) (s.nextId + 1) hentry]
    rw [hval]
  · unfold addSelectorListener
    dsimp only
    rw [hentry]
    dsimp only
    rw [if_neg (by simp)]

/-- A constant transformer for the C7 witness selector. -/
def c7Transformer : Transformer := fun _ => JSValue.vNum 9

/-- A store for the C7 witness: value `x = 4` and a dependency-free selector
`selector::t` computing `9`. -/
def c7Store : DataStore :=
  { store := [("x", ⟨JSValue.vNum 4, []⟩)]
    listeners := [("x", [])]
    selectors := [("selector::t", ⟨c7Transformer, [], []⟩)]
    removedFlags := []
    nextId := 5 }

theorem listener_execute_immediately_witness :
    (addDataListener c7Store "x" [] true).2.1
        = [Event.dataCall 5 (JSValue.vNum 4) JSValue.vUndefined]
    ∧ (addDataListener c7Store "x" [] false).2.1 = []
    ∧ (addSelectorListener c7Store "t" [] true).2.1 = [Event.selectorCall 5 (JSValue.vNum 9)]
    ∧ (addSelectorListener c7Store "t" [] false).2.1 = [] := by
  have h := listener_execute_immediately c7Store "x" "t" [] ⟨c7Transformer, [], []⟩
    (JSValue.vNum 9) rfl rfl
  exact ⟨h.1.trans rfl, h.2.1, h.2.2.1.trans rfl, h.2.2.2⟩

theorem getSelector_congr {s t : DataStore} (hsel : t.selectors = s.selectors)
    (hst : t.store = s.store) (sn : String) : getSelector t sn = getSelector s sn := by
  unfold getSelector
  rw [hsel, hst]

theorem getSelector_removeSel (s : DataStore) (selName : String) (hid : Nat)
    (entry : SelectorEntry) (he : alookup s.selectors selName = some entry) (sn : String) :
    getSelector
      { s with
        removedFlags :=
          if s.removedFlags.contains hid then s.removedFlags else hid :: s.removedFlags
        selectors := aset s.selectors selName
          { entry with
            _listeners := entry._listeners.filter (fun h =>
              !(if s.removedFlags.contains hid then s.removedFlags
                else hid :: s.removedFlags).contains h.id) } } sn
      = getSelector s sn := by
  by_cases hsn : sn = selName
  · subst hsn
    unfold getSelector
    dsimp only
    rw [alookup_aset_self, he]
  · unfold getSelector
    dsimp only
    rw [alookup_aset_ne _ _ _ _ hsn]

/-- A `remove()` only rewrites listener lists and the removed flag; it never
changes a stored value, a selector's transformer or its deps, so the value a
selector computes is unaffected. -/
theorem getSelector_execRemove (s : DataStore) (a : RemoveAction) (sn : String) :
    getSelector (execRemove s a) sn = getSelector s sn := by
  cases a with
  | removeData name hid => exact getSelector_congr rfl rfl sn
  | removeSelector selName hid =>
    unfold execRemove
    dsimp only
    cases he : alookup s.selectors selName with
    | none => exact getSelector_congr rfl rfl sn
    | some entry =>
      dsimp only
      exact getSelector_removeSel s selName hid entry he sn

theorem getSelector_execRemoves (acts : List RemoveAction) :
    ∀ (s : DataStore) (sn : String), getSelector (execRemoves s acts) sn = getSelector s sn := by
  induction acts with
  | nil => intro s sn; rfl
  | cons a rest ih =>
    intro s sn
    unfold execRemoves
    rw [List.foldl_cons]
    exact (ih (execRemove s a) sn).trans (getSelector_execRemove s a sn)

/-- One selector-listener notification pass, under arbitrary removal actions
in the callbacks: because the pass iterates the snapshot it was given and
removals never change the computed selector value, it invokes exactly the
snapshot's handles, once each, in order, all with the same value, and throws
nothing. -/
theorem fireSelectorListeners_snapshot (selName : String) (snap : List Handle) :
    ∀ (s : DataStore) (val : JSValue), getSelector s selName = Except.ok val →
      (fireSelectorListeners selName snap s).2.1
          = snap.map (fun h => Event.selectorCall h.id val)
        ∧ (fireSelectorListeners selName snap s).2.2 = none := by
  induction snap with
  | nil => intro s val _; exact ⟨rfl, rfl⟩
  | cons h rest ih =>
    intro s val hok
    unfold fireSelectorListeners
    dsimp only
    rw [hok]
    dsimp only
    rcases hx : fireSelectorListeners selName rest (execRemoves s h.actions) with ⟨s2, evs, err⟩
    dsimp only
    have hok2 : getSelector (execRemoves s h.actions) selName = Except.ok val :=
      (getSelector_execRemoves h.actions s selName).trans hok
    have hrest := ih (execRemoves s h.actions) val hok2
    rw [hx] at hrest
    dsimp only at hrest
    exact ⟨by rw [List.map_cons, hrest.1], hrest.2⟩

/-- C6: for both kinds of listener list, a notification pass iterates the
array snapshot taken when the pass started — a `remove()` performed by a
callback replaces the stored list with a fresh filtered copy and never
mutates the iterated array — so every handle of the snapshot is invoked
exactly once, in order, no matter what removals the callbacks perform: the
data-listener pass of `update` fires exactly its snapshot (first conjunct),
any selector-listener pass fires exactly its snapshot with the single
computed value (fourth conjunct), and each dependent selector's turn in
`update` contributes exactly the listener list read at that turn (fifth
conjunct); moreover a handle id absent from every listener list (as after its
`remove()` returned) is never invoked by the update and is still absent
afterwards. -/
theorem update_removal_safety (s : DataStore) (name : String) (v : JSValue)
    (item : StoreItem) (k : Nat)
    (hitem : alookup s.store name = some item)
    (hdiff : compareValuesDiff v item._data = true)
    (hk : absentIdB s k = true) :
    (update s name v).2.1
        = ((alookup s.listeners name).getD []).map (fun h => Event.dataCall h.id v item._data)
          ++ (fireDepSelectors item._selectors
              (fireDataListeners v item._data ((alookup s.listeners name).getD [])
                { s with store := aset s.store name { item with _data := v } }).1).2.1
    ∧ ((update s name v).2.1).all (fun e => eventId e != k) = true
    ∧ absentIdB (update s name v).1 k = true
    ∧ (∀ (selName : String) (snap : List Handle) (t : DataStore) (val : JSValue),
        getSelector t selName = Except.ok val →
          (fireSelectorListeners selName snap t).2.1
              = snap.map (fun h => Event.selectorCall h.id val)
            ∧ (fireSelectorListeners selName snap t).2.2 = none)
    ∧ (∀ (sn : String) (rest : List String) (t : DataStore) (entry : SelectorEntry)
          (val : JSValue),
        alookup t.selectors sn = some entry →
        getSelector t sn = Except.ok val →
          (fireDepSelectors (sn :: rest) t).2.1
            = entry._listeners.map (fun h => Event.selectorCall h.id val)
              ++ (fireDepSelectors rest (fireSelectorListeners sn entry._listeners t).1).2.1) := by
  have habs : AbsentId s k := absentIdB_iff.mp hk
  have hids := update_ids name v habs (s := s)
  refine ⟨?_, ?_, ?_, ?_, ?_⟩
  · have hps : (alookup s.store name).isSome = true := by rw [hitem]; rfl
    have h0 : initDataStoreItem s name JSValue.vUndefined = s :=
      initDataStoreItem_present _ hps
    unfold update
    dsimp only
    rw [h0, hitem]
    try dsimp only
    rw [if_neg (by simp [hdiff])]
    try dsimp only
    rcases hfdl : fireDataListeners v item._data ((alookup s.listeners name).getD [])
        { s with store := aset s.store name { item with _data := v } } with ⟨s2, evs1⟩
    have hev := fireDataListeners_events v item._data ((alookup s.listeners name).getD [])
      { s with store := aset s.store name { item with _data := v } }
    rw [hfdl] at hev
    dsimp only at hev
    rcases hfds : fireDepSelectors item._selectors s2 with ⟨s3, evs2, err⟩
    dsimp only
    rw [hev]
  · rw [List.all_eq_true]
    intro e he
    have := hids.1 e he
    simpa using this
  · exact absentIdB_iff.mpr hids.2
  · intro selName snap t val hok
    exact fireSelectorListeners_snapshot selName snap t val hok
  · intro sn rest t entry val haent hok
    conv_lhs => rw [fireDepSelectors]
    rw [haent]
    dsimp only
    rcases hfsl : fireSelectorListeners sn entry._listeners t with ⟨t1, evs1, err1⟩
    have hsnap := fireSelectorListeners_snapshot sn entry._listeners t val hok
    rw [hfsl] at hsnap
    dsimp only at hsnap
    rcases hsnap with ⟨hevs1, herr1⟩
    subst herr1
    dsimp only
    rcases hfd : fireDepSelectors rest t1 with ⟨t2, evs2, err2⟩
    dsimp only
    rw [hevs1]

/-- A store for the C6 witness: two listeners on `x`; the first one's callback
removes the second.  The absent id 7 belongs to no handle. -/
def c6Store : DataStore :=
  { store := [("x", ⟨JSValue.vNum 0, []⟩)]
    listeners := [("x", [⟨1, [RemoveAction.removeData "x" 2]⟩, ⟨2, []⟩])]
    selectors := []
    removedFlags := []
    nextId := 3 }

/-- The incrementing transformer of the C6 selector-pass witness. -/
def c6Tf : Transformer := fun vs =>
  match vs with
  | [JSValue.vNum n] => JSValue.vNum (n + 1)
  | _ => JSValue.vUndefined

/-- A second store for the C6 witness, exercising removal during a
selector-listener pass: selector `selector::sq` over `x` has two listeners
and the first one's callback removes the second. -/
def c6SelStore : DataStore :=
  { store := [("x", ⟨JSValue.vNum 0, ["selector::sq"]⟩)]
    listeners := [("x", [])]
    selectors := [("selector::sq",
      ⟨c6Tf, ["x"], [⟨1, [RemoveAction.removeSelector "selector::sq" 2]⟩, ⟨2, []⟩]⟩)]
    removedFlags := []
    nextId := 3 }

theorem update_removal_safety_witness :
    ((update c6Store "x" (JSValue.vNum 1)).2.1
        = [Event.dataCall 1 (JSValue.vNum 1) (JSValue.vNum 0),
           Event.dataCall 2 (JSValue.vNum 1) (JSValue.vNum 0)])
    ∧ ((update c6Store "x" (JSValue.vNum 1)).2.1).all (fun e => eventId e != 7) = true
    ∧ absentIdB (update c6Store "x" (JSValue.vNum 1)).1 7 = true
    ∧ (update c6SelStore "x" (JSValue.vNum 4)).2.1
        = [Event.selectorCall 1 (JSValue.vNum 5), Event.selectorCall 2 (JSValue.vNum 5)]
    ∧ selListeners (update c6SelStore "x" (JSValue.vNum 4)).1 "selector::sq"
        = [⟨1, [RemoveAction.removeSelector "selector::sq" 2]⟩] := by
  have h := update_removal_safety c6Store "x" (JSValue.vNum 1) ⟨JSValue.vNum 0, []⟩ 7
    rfl rfl rfl
  have h2 := update_removal_safety c6SelStore "x" (JSValue.vNum 4)
    ⟨JSValue.vNum 0, ["selector::sq"]⟩ 9 rfl rfl rfl
  exact ⟨h.1.trans rfl, h.2.1, h.2.2.1, h2.1.trans rfl, rfl⟩

theorem isPrefixOf_append (l t : List Char) : l.isPrefixOf (l ++ t) = true := by
  induction l with
  | nil => simp [List.isPrefixOf]
  | cons c cs ih => simp [List.isPrefixOf, ih]

theorem jsStartsWith_append (pfx rest : String) : jsStartsWith (pfx ++ rest) pfx = true := by
  unfold jsStartsWith
  rw [String.data_append]
  exact isPrefixOf_append pfx.data rest.data

theorem qualify_of_bare {bare : String} (hb : jsStartsWith bare selectorMarker = false) :
    qualifySelector bare = selectorMarker ++ bare := by
  unfold qualifySelector
  rw [if_neg (by simp [hb])]

theorem qualify_of_qualified (bare : String) :
    qualifySelector (selectorMarker ++ bare) = selectorMarker ++ bare := by
  unfold qualifySelector
  rw [if_pos (jsStartsWith_append selectorMarker bare)]

/-- A constant transformer for the C8 store. -/
def c8Transformer : Transformer := fun _ => JSValue.vNum 2

/-- A store with the selector `selector::d` defined and no raw value `d`. -/
def c8Store : DataStore :=
  { store := []
    listeners := []
    selectors := [("selector::d", ⟨c8Transformer, [], []⟩)]
    removedFlags := []
    nextId := 0 }

/-- C8 counterexample: `get` does not qualify a bare selector name — with
`selector::d` defined, `get('selector::d')` computes the selector but
`get('d')` performs a raw-value lookup and fails with the not-initialized
error, and `getSelector('d')` fails with the undefined-selector error rather
than resolving to the same selector. -/
theorem get_bare_selector_counterexample :
    get c8Store "selector::d" = Except.ok (JSValue.vNum 2)
    ∧ get c8Store "d" = Except.error StoreError.notInitialized
    ∧ getSelector c8Store "d" = Except.error StoreError.undefinedSelector :=
  ⟨rfl, rfl, rfl⟩

/-- C8 (amended): `defineSelector`, `addSelectorListener` and the selector
list of `initDataStore` silently prepend the reserved marker to a bare name,
so a bare name behaves exactly like the qualified one there; but `get` and
`getSelector` do not qualify — `get` on an unprefixed name is a raw-value
lookup. -/
theorem selector_name_qualification (s : DataStore) (bare : String)
    (hb : jsStartsWith bare selectorMarker = false)
    (deps : List String) (tf : Transformer) (acts : List RemoveAction) (ex : Bool)
    (data : List (String × JSValue)) :
    defineSelector s (JSValue.vStr bare) deps tf
        = defineSelector s (JSValue.vStr (selectorMarker ++ bare)) deps tf
    ∧ addSelectorListener s bare acts ex
        = addSelectorListener s (selectorMarker ++ bare) acts ex
    ∧ initDataStore s data [bare] = initDataStore s data [selectorMarker ++ bare]
    ∧ get s bare = (match alookup s.store bare with
        | none => Except.error StoreError.notInitialized
        | some item => Except.ok item._data) := by
  refine ⟨?_, ?_, ?_, ?_⟩
  · unfold defineSelector
    dsimp only
    rw [qualify_of_bare hb, qualify_of_qualified bare]
  · unfold addSelectorListener
    dsimp only
    rw [qualify_of_bare hb, qualify_of_qualified bare]
  · unfold initDataStore
    dsimp only
    simp only [List.foldl_cons, List.foldl_nil]
    unfold initSelectorItem
    rw [qualify_of_bare hb, qualify_of_qualified bare]
  · unfold get
    rw [if_neg (by simp [hb])]

theorem selector_name_qualification_witness :
    defineSelector c8Store (JSValue.vStr "d") [] c8Transformer
        = defineSelector c8Store (JSValue.vStr "selector::d") [] c8Transformer
    ∧ addSelectorListener c8Store "d" [] false
        = addSelectorListener c8Store "selector::d" [] false
    ∧ initDataStore c8Store [] ["d"] = initDataStore c8Store [] ["selector::d"]
    ∧ get c8Store "d" = Except.error StoreError.notInitialized := by
  have h := selector_name_qualification c8Store "d" rfl [] c8Transformer [] false []
  exact ⟨h.1.trans rfl, h.2.1.trans rfl, h.2.2.1.trans rfl, h.2.2.2.trans rfl⟩

theorem registerDeps_ok (q : String) (deps : List String) :
    ∀ s : DataStore, (∀ d ∈ deps, (alookup s.store d).isSome = true) →
      (registerDeps s q deps).2 = none := by
  induction deps with
  | nil => intro s _; rfl
  | cons dep rest ih =>
    intro s hdeps
    unfold registerDeps
    dsimp only
    cases hl : alookup s.store dep with
    | none =>
      have := hdeps dep (List.mem_cons_self dep rest)
      rw [hl] at this
      simp at this
    | some item =>
      dsimp only
      apply ih
      intro d hd
      by_cases hde : d = dep
      · subst hde
        dsimp only
        rw [alookup_aset_self]
        rfl
      · dsimp only
        rw [alookup_aset_ne _ _ _ _ hde]
        exact hdeps d (List.mem_cons_of_mem _ hd)

theorem registerDeps_listeners (q : String) (deps : List String) :
    ∀ s : DataStore, ((registerDeps s q deps).1).listeners = s.listeners := by
  induction deps with
  | nil => intro s; rfl
  | cons dep rest ih =>
    intro s
    unfold registerDeps
    dsimp only
    cases hl : alookup s.store dep with
    | none => rfl
    | some item =>
      dsimp only
      rw [ih]

theorem allHandles_selectors_aset_sharp {s t : DataStore} {n : String}
    {e : SelectorEntry} {h : Handle}
    (hmem : h ∈ allHandles t)
    (hts : t.selectors = aset s.selectors n e) (htl : t.listeners = s.listeners) :
    h ∈ e._listeners
      ∨ h ∈ (s.listeners.map Prod.snd).flatten
      ∨ ∃ p, p ∈ s.selectors ∧ p.1 ≠ n ∧ h ∈ p.2._listeners := by
  unfold allHandles at hmem
  rw [htl, hts, List.mem_append] at hmem
  rcases hmem with hmem | hmem
  · exact Or.inr (Or.inl hmem)
  · rcases mem_flatten_map_aset s.selectors n e (fun p => p.2._listeners) hmem
      with hx | ⟨p, hp, hne, hx⟩
    · exact Or.inl hx
    · exact Or.inr (Or.inr ⟨p, hp, hne, hx⟩)

/-- C9: redefining a selector under an already-used (qualified) name replaces
the whole entry with one holding an empty listener list; a handle id that
lived only in that selector's old listener list is afterwards absent from
every listener list, and any subsequent update invokes none of the dropped
listeners. -/
theorem defineSelector_drops_listeners (s : DataStore) (nameStr : String)
    (deps : List String) (tf : Transformer) (old : SelectorEntry) (k : Nat)
    (m : String) (v : JSValue)
    (_hq : alookup s.selectors (qualifySelector nameStr) = some old)
    (_hk : k ∈ old._listeners.map (fun h => h.id))
    (hdeps : ∀ d ∈ deps, (alookup s.store d).isSome = true)
    (huniq1 : ((s.listeners.map Prod.snd).flatten).all (fun h => h.id != k) = true)
    (huniq2 : s.selectors.all (fun p =>
        p.1 == qualifySelector nameStr || p.2._listeners.all (fun h => h.id != k)) = true) :
    (defineSelector s (JSValue.vStr nameStr) deps tf).2 = none
    ∧ alookup ((defineSelector s (JSValue.vStr nameStr) deps tf).1).selectors
        (qualifySelector nameStr) = some ⟨tf, deps, []⟩
    ∧ absentIdB (defineSelector s (JSValue.vStr nameStr) deps tf).1 k = true
    ∧ ((update (defineSelector s (JSValue.vStr nameStr) deps tf).1 m v).2.1).all
        (fun e => eventId e != k) = true := by
  have hok := registerDeps_ok (qualifySelector nameStr) deps s hdeps
  have hlis := registerDeps_listeners (qualifySelector nameStr) deps s
  have hsel := registerDeps_selectors (qualifySelector nameStr) deps s
  unfold defineSelector
  dsimp only
  rcases hr : registerDeps s (qualifySelector nameStr) deps with ⟨s', err⟩
  rw [hr] at hok hlis hsel
  dsimp only at hok hlis hsel
  subst hok
  dsimp only
  have habs : AbsentId
      ({ s' with selectors := aset s'.selectors (qualifySelector nameStr) ⟨tf, deps, []⟩ }
        : DataStore) k := by
    intro h hm
    rcases allHandles_selectors_aset_sharp hm rfl rfl with hx | hx | ⟨p, hp, hne, hx⟩
    · exact absurd hx (List.not_mem_nil h)
    · rw [hlis] at hx
      have := List.all_eq_true.mp huniq1 h hx
      simpa using this
    · rw [hsel] at hp
      have hall := List.all_eq_true.mp huniq2 p hp
      rw [Bool.or_eq_true] at hall
      rcases hall with hall | hall
      · exact absurd (by simpa using hall) hne
      · have := List.all_eq_true.mp hall h hx
        simpa using this
  refine ⟨rfl, ?_, ?_, ?_⟩
  · dsimp only
    exact alookup_aset_self s'.selectors (qualifySelector nameStr) ⟨tf, deps, []⟩
  · exact absentIdB_iff.mpr habs
  · have hids := update_ids m v habs
    rw [List.all_eq_true]
    intro e he
    have := hids.1 e he
    simpa using this

/-- The original transformer of the C9 witness selector. -/
def c9Tf1 : Transformer := fun _ => JSValue.vNum 1

/-- The replacement transformer of the C9 witness selector. -/
def c9Tf2 : Transformer := fun _ => JSValue.vNum 2

/-- A store for the C9 witness: selector `selector::s` over `a` with one
subscribed listener (id 7). -/
def c9Store : DataStore :=
  { store := [("a", ⟨JSValue.vNum 0, ["selector::s"]⟩)]
    listeners := [("a", [])]
    selectors := [("selector::s", ⟨c9Tf1, ["a"], [⟨7, []⟩]⟩)]
    removedFlags := []
    nextId := 8 }

theorem defineSelector_drops_listeners_witness :
    (defineSelector c9Store (JSValue.vStr "s") ["a"] c9Tf2).2 = none
    ∧ alookup ((defineSelector c9Store (JSValue.vStr "s") ["a"] c9Tf2).1).selectors
        "selector::s" = some ⟨c9Tf2, ["a"], []⟩
    ∧ absentIdB (defineSelector c9Store (JSValue.vStr "s") ["a"] c9Tf2).1 7 = true
    ∧ ((update (defineSelector c9Store (JSValue.vStr "s") ["a"] c9Tf2).1 "a"
        (JSValue.vNum 9)).2.1).all (fun e => eventId e != 7) = true := by
  have h := defineSelector_drops_listeners c9Store "s" ["a"] c9Tf2 ⟨c9Tf1, ["a"], [⟨7, []⟩]⟩ 7
    "a" (JSValue.vNum 9) rfl (by simp) (by decide) rfl rfl
  exact ⟨h.1, h.2.1, h.2.2.1, h.2.2.2⟩

theorem initDataStoreItem_preserves {s : DataStore} {dn : String}
    (hdn : (alookup s.store dn).isSome = true) (n : String) (v : JSValue) :
    alookup (initDataStoreItem s n v).store dn = alookup s.store dn
    ∧ alookup (initDataStoreItem s n v).listeners dn = alookup s.listeners dn := by
  unfold initDataStoreItem
  by_cases h : (alookup s.store n).isSome = true
  · rw [if_pos h]
    exact ⟨rfl, rfl⟩
  · rw [if_neg h]
    have hne : dn ≠ n := by
      intro hcon
      rw [hcon] at hdn
      exact h hdn
    dsimp only
    exact ⟨alookup_aset_ne _ _ _ _ hne, alookup_aset_ne _ _ _ _ hne⟩

theorem dataFold_preserves (data : List (String × JSValue)) :
    ∀ (s : DataStore) (dn : String), (alookup s.store dn).isSome = true →
      alookup ((data.foldl (fun acc p => initDataStoreItem acc p.1 p.2) s)).store dn
          = alookup s.store dn
      ∧ alookup ((data.foldl (fun acc p => initDataStoreItem acc p.1 p.2) s)).listeners dn
          = alookup s.listeners dn := by
  induction data with
  | nil => intro s dn _; exact ⟨rfl, rfl⟩
  | cons p rest ih =>
    intro s dn hdn
    rw [List.foldl_cons]
    have hstep := initDataStoreItem_preserves hdn p.1 p.2
    have hdn1 : (alookup (initDataStoreItem s p.1 p.2).store dn).isSome = true := by
      rw [hstep.1]
      exact hdn
    have hrest := ih (initDataStoreItem s p.1 p.2) dn hdn1
    exact ⟨hrest.1.trans hstep.1, hrest.2.trans hstep.2⟩

theorem selFold_preserves_placeholder (sels : List String) :
    ∀ (s : DataStore) (q : String), alookup s.selectors q = some placeholderEntry →
      alookup ((sels.foldl initSelectorItem s)).selectors q = some placeholderEntry := by
  induction sels with
  | nil => intro s q hq; exact hq
  | cons a rest ih =>
    intro s q hq
    rw [List.foldl_cons]
    apply ih
    unfold initSelectorItem
    dsimp only
    by_cases he : q = qualifySelector a
    · rw [he, alookup_aset_self]
    · rw [alookup_aset_ne _ _ _ _ he]
      exact hq

theorem selFold_mem (sels : List String) :
    ∀ (s : DataStore) (sn : String), sn ∈ sels →
      alookup ((sels.foldl initSelectorItem s)).selectors (qualifySelector sn)
        = some placeholderEntry := by
  induction sels with
  | nil =>
    intro s sn hm
    exact absurd hm (List.not_mem_nil sn)
  | cons a rest ih =>
    intro s sn hm
    rw [List.foldl_cons]
    rcases List.mem_cons.mp hm with rfl | hm
    · apply selFold_preserves_placeholder
      unfold initSelectorItem
      dsimp only
      rw [alookup_aset_self]
    · exact ih _ sn hm

theorem selFold_data (sels : List String) :
    ∀ s : DataStore,
      ((sels.foldl initSelectorItem s)).store = s.store
      ∧ ((sels.foldl initSelectorItem s)).listeners = s.listeners := by
  induction sels with
  | nil => intro s; exact ⟨rfl, rfl⟩
  | cons a rest ih =>
    intro s
    rw [List.foldl_cons]
    exact ⟨(ih _).1.trans rfl, (ih _).2.trans rfl⟩

/-- C10: `initDataStore` is not idempotent for selectors: every name in its
`selectors` argument is unconditionally overwritten with the placeholder
entry (a transformer returning `undefined`, no deps, no listeners), even if
the selector was fully defined and subscribed; by contrast a name in its
`data` argument that already exists keeps its current value and listeners. -/
theorem initDataStore_overwrites_selectors (s : DataStore)
    (data : List (String × JSValue)) (sels : List String)
    (sn dn : String) (it : StoreItem)
    (hsn : sn ∈ sels)
    (hdn : alookup s.store dn = some it) :
    alookup (initDataStore s data sels).selectors (qualifySelector sn) = some placeholderEntry
    ∧ (∀ args, placeholderEntry._transformer args = JSValue.vUndefined)
    ∧ placeholderEntry._deps = []
    ∧ placeholderEntry._listeners = []
    ∧ alookup (initDataStore s data sels).store dn = some it
    ∧ alookup (initDataStore s data sels).listeners dn = alookup s.listeners dn := by
  have hdn' : (alookup s.store dn).isSome = true := by rw [hdn]; rfl
  have hdata := dataFold_preserves data s dn hdn'
  have hsels := selFold_mem sels (data.foldl (fun acc p => initDataStoreItem acc p.1 p.2) s)
    sn hsn
  have hkeep := selFold_data sels (data.foldl (fun acc p => initDataStoreItem acc p.1 p.2) s)
  unfold initDataStore
  dsimp only
  refine ⟨hsels, fun args => rfl, rfl, rfl, ?_, ?_⟩
  · rw [hkeep.1, hdata.1, hdn]
  · rw [hkeep.2, hdata.2]

/-- The selector transformer the C10 witness store starts with. -/
def c10OldTf : Transformer := fun _ => JSValue.vNum 3

/-- A store for the C10 witness: value `u` with a listener, and the fully
defined, subscribed selector `selector::f`. -/
def c10Store : DataStore :=
  { store := [("u", ⟨JSValue.vStr "keep", []⟩)]
    listeners := [("u", [⟨0, []⟩])]
    selectors := [("selector::f", ⟨c10OldTf, ["u"], [⟨1, []⟩]⟩)]
    removedFlags := []
    nextId := 2 }

theorem initDataStore_overwrites_selectors_witness :
    alookup (initDataStore c10Store [("u", JSValue.vNum 5), ("w", JSValue.vNum 6)]
        ["f"]).selectors "selector::f" = some placeholderEntry
    ∧ alookup (initDataStore c10Store [("u", JSValue.vNum 5), ("w", JSValue.vNum 6)]
        ["f"]).store "u" = some ⟨JSValue.vStr "keep", []⟩
    ∧ alookup (initDataStore c10Store [("u", JSValue.vNum 5), ("w", JSValue.vNum 6)]
        ["f"]).listeners "u" = some [⟨0, []⟩] := by
  have h := initDataStore_overwrites_selectors c10Store
    [("u", JSValue.vNum 5), ("w", JSValue.vNum 6)] ["f"] "f" "u" ⟨JSValue.vStr "keep", []⟩
    (by simp) rfl
  exact ⟨h.1, h.2.2.2.2.1, h.2.2.2.2.2.trans rfl⟩

end Hoox
